import Mathlib

set_option maxRecDepth 100000

/-!
# Verification of the MLM trend-following strategy script

This file is a shallow embedding of `main.py` (an MLM futures
trend-following script built on `ib_insync`) together with proofs about
its decision logic.

Embedding conventions:

* Prices and derived float quantities are modelled as exact rationals `ℚ`
  (the claims under verification are about the ideal real-number
  semantics of the computations, not about IEEE-754 rounding).
* pandas `NaN` produced by `pct_change` / `rolling` with insufficient
  history never survives `dropna`; the embedding therefore materialises
  only the rows that `dropna` keeps and records, as index arithmetic,
  which rows those are.  The model assumes the close prices of a series
  are nonzero (they are prices), so `pct_change` never produces
  `inf`/`NaN` from division inside the data itself.
* A standard deviation is an (often irrational) square root, so an
  `IndicatorRow` stores the *sample variance* of the trailing returns
  (`rollingVar`, an exact rational) and the standard deviation column
  `rolling_std_20` of the source is recovered as
  `Real.sqrt rollingVar` (`rolling_std` below).
* The `ib_insync` broker session is modelled by an `Env` record holding
  the responses of the external collaborators
  (`reqHistoricalData`, `reqContractDetails`) and today's calendar day
  (`datetime.today().day`); order placement and `ib.disconnect()` are
  recorded in the cycle result rather than performed.
-/

namespace MLM

/-- One entry of `mlm_universe`: symbol, exchange, currency, category. -/
structure SymbolInfo where
  symbol : String
  exchange : String
  currency : String
  category : String
deriving DecidableEq

/-- One daily bar of the historical data.  Only the date and the close
price are relevant to the script's logic (`compute_indicators` reads the
`close` column only; dates are carried to settle date-validation
claims). Dates are encoded as natural numbers. -/
structure Bar where
  date : ℕ
  close : ℚ
deriving DecidableEq

/-- A dated futures contract as returned (inside `ContractDetails`) by
`reqContractDetails`: only `lastTradeDateOrContractMonth` is inspected by
the script; `conId` distinguishes duplicate listings. -/
structure Contract where
  conId : ℕ
  lastTradeDateOrContractMonth : String
deriving DecidableEq

/-- `VOL_WINDOW = 20` from the source. -/
def VOL_WINDOW : ℕ := 20

/-- `MA_WINDOW = 200` from the source. -/
def MA_WINDOW : ℕ := 200

/-- `VOL_THRESHOLD = 0.015` from the source. -/
def VOL_THRESHOLD : ℚ := 15 / 1000

/-- `CONTRACT_SIZE = 1` from the source. -/
def CONTRACT_SIZE : ℕ := 1

/-- `np.mean` / arithmetic mean of a list: sum divided by length
(`0` on the empty list, where the source would produce `NaN`;
the script only evaluates it on nonempty input). -/
def npMean {K : Type} [Field K] (l : List K) : K :=
  l.sum / (l.length : K)

/-- Sample variance (`ddof = 1`, matching `pandas` `.std()` squared):
sum of squared deviations from the mean divided by `length - 1`. -/
def sampleVar (l : List ℚ) : ℚ :=
  ((l.map fun x => (x - npMean l) * (x - npMean l)).sum) / ((l.length : ℚ) - 1)

/-- `df['close'].pct_change()` at index `i ≥ 1`:
`close[i] / close[i-1] - 1`.  (At `i = 0` pandas produces `NaN`; the
embedding never reads `retAt` at `0` on a surviving row.) -/
def retAt (closes : List ℚ) (i : ℕ) : ℚ :=
  closes.getD i 0 / closes.getD (i - 1) 0 - 1

/-- One row of the derived DataFrame produced by `compute_indicators`,
at position `idx` of the input series.  `rollingVar` is the square of
the `rolling_std_20` column (see module docstring). -/
structure IndicatorRow where
  idx : ℕ
  ret : ℚ
  rollingVar : ℚ
  ma : ℚ
  close : ℚ
  signal : ℤ
deriving DecidableEq

/-- The `rolling_std_20` column of the source: the sample standard
deviation of the trailing `VOL_WINDOW` returns, i.e. the square root of
the stored sample variance. -/
noncomputable def rolling_std (r : IndicatorRow) : ℝ :=
  Real.sqrt (r.rollingVar : ℝ)

/-- The first index of the input series that survives
`df.dropna(inplace=True)` in `compute_indicators`:

* `return` is `NaN` at index `0`;
* `rolling(volW).std()` is `NaN` until the window holds `volW`
  non-`NaN` returns, i.e. for indices `< volW`;
* `rolling(maW).mean()` is `NaN` until `maW` closes exist, i.e. for
  indices `< maW - 1`.

So a row survives iff its index is at least `max volW (maW - 1)`. -/
def startIdx (volW maW : ℕ) : ℕ := max volW (maW - 1)

/-- The row of the derived DataFrame at input index `i` (only evaluated
at surviving indices `i ≥ startIdx volW maW`): one-period return,
sample variance of the trailing `volW` returns (indices
`i-volW+1 .. i`), mean of the trailing `maW` closes (indices
`i-maW+1 .. i`), the close itself, and the signal
`np.where(close > MA, 1, -1)`. -/
def mkRow (volW maW : ℕ) (closes : List ℚ) (i : ℕ) : IndicatorRow :=
  ⟨i,
   retAt closes i,
   sampleVar ((List.range' (i + 1 - volW) volW).map (retAt closes)),
   npMean ((List.range' (i + 1 - maW) maW).map fun j => closes.getD j 0),
   closes.getD i 0,
   if npMean ((List.range' (i + 1 - maW) maW).map fun j => closes.getD j 0) <
        closes.getD i 0 then 1 else -1⟩

/-- `compute_indicators`, parameterised by the two window lengths and
acting on the list of close prices.  Produces exactly the rows that
survive `dropna`, i.e. the indices from `startIdx volW maW` on. -/
def computeIndicatorsWith (volW maW : ℕ) (closes : List ℚ) : List IndicatorRow :=
  ((List.range closes.length).filter fun i => startIdx volW maW ≤ i).map
    (mkRow volW maW closes)

/-- `compute_indicators(df)` from the source: the windows are the global
constants and only the `close` column of the DataFrame is read. -/
def compute_indicators (bars : List Bar) : List IndicatorRow :=
  computeIndicatorsWith VOL_WINDOW MA_WINDOW (bars.map Bar.close)

/-- The filter applied to contract details in `get_front_month_contract`:
`if c.lastTradeDateOrContractMonth and len(c.lastTradeDateOrContractMonth) >= 6`,
i.e. the expiry token is a non-empty (truthy) string of length at least 6. -/
def tokenOK (c : Contract) : Bool :=
  decide (c.lastTradeDateOrContractMonth ≠ "" ∧ 6 ≤ c.lastTradeDateOrContractMonth.length)

/-- The sort key relation of
`valid_contracts.sort(key=lambda x: x.lastTradeDateOrContractMonth)`:
comparison of the expiry tokens in lexicographic (code-point) string
order, exactly Python's string ordering. -/
def contractLE (a b : Contract) : Prop :=
  a.lastTradeDateOrContractMonth ≤ b.lastTradeDateOrContractMonth

instance : DecidableRel contractLE :=
  fun a b => inferInstanceAs (Decidable (a.lastTradeDateOrContractMonth ≤ b.lastTradeDateOrContractMonth))

/-- `get_front_month_contract`, given the contracts contained in the
`reqContractDetails` response: filter to truthy tokens of length ≥ 6,
return `None` when nothing survives (this also covers the source's
early `if not details` return), otherwise sort ascending by token with a
stable sort (Python `list.sort` is stable; `List.insertionSort` is the
stable sort used here) and return the first element. -/
def get_front_month_contract (details : List Contract) : Option Contract :=
  ((details.filter tokenOK).insertionSort contractLE).head?

/-- The first element of a contract list that is minimal for
`contractLE`, choosing the earlier element on ties.  Because Python's
`list.sort` (and `List.insertionSort`) is stable, this is exactly the
element `valid_contracts[0]` after `valid_contracts.sort(...)`; the
equivalence is proved in `head?_insertionSort_contractLE` below. -/
def firstMinC : List Contract → Option Contract
  | [] => none
  | x :: l =>
    match firstMinC l with
    | none => some x
    | some m => if contractLE x m then some x else some m

/-- Modelled from the spec: a spec-side well-formedness predicate for an
expiry token ("resolvable to a calendar month"): at least 6 characters,
the first four characters decimal digits (the year) and the fifth and
sixth characters decimal digits encoding a month between 01 and 12.
This definition follows the spec's words (the source enforces no such
condition); it exists to compare the source's behaviour against the
spec's claimed `TradableContract` invariant. -/
def specTokenWellFormed (s : String) : Bool :=
  decide (6 ≤ s.length) &&
  (s.data.take 4).all Char.isDigit &&
  ((s.data.drop 4).take 2).all Char.isDigit &&
  (let m := ((s.data.drop 4).take 2).foldl (fun a ch => 10 * a + (ch.toNat - 48)) 0
   decide (1 ≤ m) && decide (m ≤ 12))

/-- The external collaborators of one strategy cycle, as seen through
`ib_insync`: the historical-bars response per instrument
(`reqHistoricalData`; `none` models a raised exception or an empty bars
list is modelled by `some []`), the contract details per instrument
(`reqContractDetails`, already projected to the `.contract` field of
each `ContractDetails` entry), and today's day of month
(`datetime.today().day`). -/
structure Env where
  fetch : SymbolInfo → Option (List Bar)
  contractDetails : SymbolInfo → List Contract
  todayDay : ℕ

/-- `get_continuous_data`: an exception (`none`), no bars, or an empty
DataFrame all produce `None`; otherwise the DataFrame of bars is
returned. -/
def get_continuous_data (env : Env) (info : SymbolInfo) : Option (List Bar) :=
  match env.fetch info with
  | none => none
  | some bars => if bars = [] then none else some bars

/-- The per-symbol record stored in `symbol_data_map`: the derived
DataFrame, `df_ind['signal'].iloc[-1]` and (the sample variance whose
square root is) `df_ind['rolling_std_20'].iloc[-1]`. -/
structure Snapshot where
  df : List IndicatorRow
  signal : ℤ
  volVar : ℚ
deriving DecidableEq

/-- The body of the first loop of `run_mlm_strategy` for one universe
entry: fetch the continuous data (skip on `None`/empty), compute the
indicators (skip when the derived DataFrame is empty), otherwise store
the snapshot keyed by the symbol string. -/
def snapEntry (env : Env) (info : SymbolInfo) : Option (String × Snapshot) :=
  match get_continuous_data env info with
  | none => none
  | some bars =>
    if h : compute_indicators bars = [] then none
    else
      some (info.symbol,
        ⟨compute_indicators bars,
         ((compute_indicators bars).getLast h).signal,
         ((compute_indicators bars).getLast h).rollingVar⟩)

/-- `symbol_data_map` after the first loop, as an insertion-ordered
association list (Python dicts preserve insertion order). -/
def buildMap (env : Env) (univ : List SymbolInfo) : List (String × Snapshot) :=
  univ.filterMap (snapEntry env)

/-- Whether a universe entry contributes a snapshot this cycle: its
fetch succeeded with a nonempty series and the derived indicator
DataFrame is nonempty. -/
def producedSnapshot (env : Env) (info : SymbolInfo) : Bool :=
  match get_continuous_data env info with
  | none => false
  | some bars => !(compute_indicators bars).isEmpty

/-- `avg_vol = np.mean(all_vols)`: the unweighted arithmetic mean of the
latest per-instrument volatilities (each the square root of the stored
sample variance), over exactly the instruments present in
`symbol_data_map`. -/
noncomputable def avgVolReal (m : List (String × Snapshot)) : ℝ :=
  npMean (m.map fun p => Real.sqrt (p.2.volVar : ℝ))

/-- An order as submitted by `ib.placeOrder(front_contract, MarketOrder(action, pos_size))`. -/
structure OrderIntent where
  symbol : String
  contract : Contract
  action : String
  quantity : ℕ
deriving DecidableEq

/-- The order-submission loop (entered only when both gates are open):
for each stored symbol, look its info up in the universe (skip if
absent), resolve the front-month contract (skip on `None`), then place a
market order whose action is BUY for signal `+1` and SELL otherwise,
with the fixed `CONTRACT_SIZE` quantity. -/
def submitOrders (env : Env) (univ : List SymbolInfo)
    (m : List (String × Snapshot)) : List OrderIntent :=
  m.filterMap fun p =>
    match univ.find? fun x => x.symbol == p.1 with
    | none => none
    | some info =>
      match get_front_month_contract (env.contractDetails info) with
      | none => none
      | some front =>
        some ⟨p.1, front, (if p.2.signal = (1 : ℤ) then "BUY" else "SELL"), CONTRACT_SIZE⟩

/-- The two cycle-level outcomes: the early `"No data for any symbols!"`
termination, and normal completion (with or without trades). -/
inductive CycleStatus where
  | noData
  | completed
deriving DecidableEq

/-- The externally observable result of one `run_mlm_strategy` cycle:
the cycle-level outcome, the average volatility that was printed (absent
on the no-data path), whether the submission branch was entered, the
orders placed, and how many times `ib.disconnect()` ran. -/
structure RunResult where
  status : CycleStatus
  avgVol : Option ℝ
  enteredSubmission : Bool
  orders : List OrderIntent
  disconnects : ℕ

/-- The conjunction `is_rebalance_day and is_volatile` guarding the
submission branch: today's day of month equals 25, and the average
volatility strictly exceeds `VOL_THRESHOLD`. -/
def bothGates (env : Env) (m : List (String × Snapshot)) : Prop :=
  env.todayDay = 25 ∧ (VOL_THRESHOLD : ℝ) < avgVolReal m

open scoped Classical in
/-- `run_mlm_strategy` on the non-exceptional paths after a successful
connection: build `symbol_data_map`; if it is empty, print the error,
disconnect and return early; otherwise compute the average volatility,
evaluate both gates, enter the submission loop only when both hold, and
disconnect.  The universe is the source's global `mlm_universe`, passed
here as an explicit parameter. -/
noncomputable def run_mlm_strategy (env : Env) (univ : List SymbolInfo) : RunResult :=
  if buildMap env univ = [] then
    ⟨CycleStatus.noData, none, false, [], 1⟩
  else if bothGates env (buildMap env univ) then
    ⟨CycleStatus.completed, some (avgVolReal (buildMap env univ)), true,
     submitOrders env univ (buildMap env univ), 1⟩
  else
    ⟨CycleStatus.completed, some (avgVolReal (buildMap env univ)), false, [], 1⟩

/-- The literal `mlm_universe` of the source (25 instrument families). -/
def mlm_universe : List SymbolInfo :=
  [⟨"ZC", "CBOT", "USD", "Grains"⟩,
   ⟨"ZW", "CBOT", "USD", "Grains"⟩,
   ⟨"ZS", "CBOT", "USD", "Grains"⟩,
   ⟨"ZM", "CBOT", "USD", "Grains"⟩,
   ⟨"ZL", "CBOT", "USD", "Grains"⟩,
   ⟨"LE", "CME", "USD", "Cattle"⟩,
   ⟨"CL", "NYMEX", "USD", "Energy"⟩,
   ⟨"HO", "NYMEX", "USD", "Energy"⟩,
   ⟨"RB", "NYMEX", "USD", "Energy"⟩,
   ⟨"NG", "NYMEX", "USD", "Energy"⟩,
   ⟨"GC", "COMEX", "USD", "Metals"⟩,
   ⟨"SI", "COMEX", "USD", "Metals"⟩,
   ⟨"HG", "COMEX", "USD", "Metals"⟩,
   ⟨"SB", "NYBOT", "USD", "Softs"⟩,
   ⟨"KC", "NYBOT", "USD", "Softs"⟩,
   ⟨"CT", "NYBOT", "USD", "Softs"⟩,
   ⟨"ZF", "CBOT", "USD", "Softs"⟩,
   ⟨"ZN", "CBOT", "USD", "Treasurys"⟩,
   ⟨"ZB", "CBOT", "USD", "Treasurys"⟩,
   ⟨"AUD", "CME", "USD", "Currencys"⟩,
   ⟨"GBP", "CME", "USD", "Currencys"⟩,
   ⟨"CAD", "CME", "USD", "Currencys"⟩,
   ⟨"EUR", "CME", "USD", "Currencys"⟩,
   ⟨"CHF", "CME", "USD", "Currencys"⟩,
   ⟨"JPY", "CME", "USD", "Currencys"⟩]

/-- A 200-bar price series with constant close 1: long enough for the
200-day moving average, so `compute_indicators` yields exactly one row. -/
def goodBars : List Bar := List.replicate 200 ⟨0, 1⟩

/-- A four-instrument universe (the first four `mlm_universe` entries),
used to exercise per-instrument failure isolation. -/
def uni4 : List SymbolInfo :=
  [⟨"ZC", "CBOT", "USD", "Grains"⟩,
   ⟨"ZW", "CBOT", "USD", "Grains"⟩,
   ⟨"ZS", "CBOT", "USD", "Grains"⟩,
   ⟨"ZM", "CBOT", "USD", "Grains"⟩]

/-- An environment in which every fetch succeeds with `goodBars`, a
front-month contract exists, and today is the 24th (not a rebalance
day). -/
def envA : Env :=
  ⟨fun _ => some goodBars, fun _ => [⟨0, "202406"⟩], 24⟩

/-! ### The exception-aware cycle model

`Env` above models the non-exceptional executions: it is the right
scope for the gating, aggregation and disconnect claims, whose logic
runs before (or independently of) any metadata call.  But in the
source, `ib.reqHistoricalData` is the only external call wrapped in
`try/except`: `ib.reqContractDetails` (inside
`get_front_month_contract`) and `ib.placeOrder` are called uncaught
inside the submission loop, so an exception raised there for one
instrument propagates out of `run_mlm_strategy`, abandoning the
remaining instruments and skipping `ib.disconnect()`.  `EnvExc` and
`run_mlm_strategy_exc` model exactly that error path. -/

/-- External collaborators including the unhandled error paths of the
submission loop: `contractDetailsExc info = none` models
`ib.reqContractDetails` raising an exception for that instrument (the
spec's `MetadataFetchError`), and `placeOrderRaises o = true` models
`ib.placeOrder` raising on that order (the spec's `SubmissionError`);
both calls are uncaught in the source. -/
structure EnvExc where
  fetch : SymbolInfo → Option (List Bar)
  contractDetailsExc : SymbolInfo → Option (List Contract)
  placeOrderRaises : OrderIntent → Bool
  todayDay : ℕ

/-- The non-exceptional view of an `EnvExc`: on executions where no
metadata call raises, the cycle behaves like `run_mlm_strategy` over
this `Env` (proved in `run_exc_agrees` below).  An instrument whose
metadata would raise is given the empty details list here; the
agreement lemma is only about environments that never raise. -/
def toEnv (env : EnvExc) : Env :=
  ⟨env.fetch, fun i => (env.contractDetailsExc i).getD [], env.todayDay⟩

/-- Outcome of one cycle in the exception-aware model: `aborted os`
means an uncaught exception escaped `run_mlm_strategy` after the orders
`os` had already been placed — the remaining instruments were never
processed and `ib.disconnect()` never ran. -/
inductive CycleOutcome where
  | aborted (orders : List OrderIntent)
  | finished (result : RunResult)

/-- The orders actually placed during the cycle, whether or not it
completed. -/
def ordersOf : CycleOutcome → List OrderIntent
  | CycleOutcome.aborted os => os
  | CycleOutcome.finished r => r.orders

/-- How many times `ib.disconnect()` ran: never on an aborted cycle
(no `try/finally` exists in the source), once otherwise. -/
def disconnectsOf : CycleOutcome → ℕ
  | CycleOutcome.aborted _ => 0
  | CycleOutcome.finished r => r.disconnects

/-- Whether the cycle was aborted by an escaped exception. -/
def isAborted : CycleOutcome → Bool
  | CycleOutcome.aborted _ => true
  | CycleOutcome.finished _ => false

/-- The submission loop with the uncaught error paths: for each stored
symbol in order, look up its info (skip if absent), request the
contract details — if that call raises, the exception escapes at once
(`Except.error`, carrying the orders placed so far) — resolve the front
month (skip on `None`), then place the order, whose own failure also
escapes; otherwise continue with the remaining instruments. -/
def submitLoopExc (env : EnvExc) (univ : List SymbolInfo) :
    List (String × Snapshot) → Except (List OrderIntent) (List OrderIntent)
  | [] => Except.ok []
  | p :: rest =>
    match univ.find? fun x => x.symbol == p.1 with
    | none => submitLoopExc env univ rest
    | some info =>
      match env.contractDetailsExc info with
      | none => Except.error []
      | some details =>
        match get_front_month_contract details with
        | none => submitLoopExc env univ rest
        | some front =>
          let o : OrderIntent :=
            ⟨p.1, front, (if p.2.signal = (1 : ℤ) then "BUY" else "SELL"), CONTRACT_SIZE⟩
          if env.placeOrderRaises o then Except.error []
          else
            match submitLoopExc env univ rest with
            | Except.ok os => Except.ok (o :: os)
            | Except.error os => Except.error (o :: os)

open scoped Classical in
/-- `run_mlm_strategy` in the exception-aware model: identical to
`run_mlm_strategy` up to the submission loop, whose uncaught exceptions
turn the whole cycle into `CycleOutcome.aborted` — with only the orders
placed before the failure, and no disconnect. -/
noncomputable def run_mlm_strategy_exc (env : EnvExc) (univ : List SymbolInfo) : CycleOutcome :=
  if buildMap (toEnv env) univ = [] then
    CycleOutcome.finished ⟨CycleStatus.noData, none, false, [], 1⟩
  else if env.todayDay = 25 ∧ (VOL_THRESHOLD : ℝ) < avgVolReal (buildMap (toEnv env) univ) then
    match submitLoopExc env univ (buildMap (toEnv env) univ) with
    | Except.error os => CycleOutcome.aborted os
    | Except.ok os =>
      CycleOutcome.finished
        ⟨CycleStatus.completed, some (avgVolReal (buildMap (toEnv env) univ)), true, os, 1⟩
  else
    CycleOutcome.finished
      ⟨CycleStatus.completed, some (avgVolReal (buildMap (toEnv env) univ)), false, [], 1⟩

/-- A 200-bar series whose close is 1 for 199 days and 2 on the last
day: the final 20-return window is 19 zeros and one `+1`, whose sample
variance is `1/20` — a volatility of `sqrt(1/20) ≈ 0.22`, far above the
threshold. -/
def volBars : List Bar := List.replicate 199 ⟨0, 1⟩ ++ [⟨0, 2⟩]

/-- The closes of `volBars`. -/
def volCloses : List ℚ := List.replicate 199 1 ++ [2]

/-- The snapshot every instrument fetched from `volBars` stores. -/
def volSnap : Snapshot :=
  ⟨compute_indicators volBars,
   ((compute_indicators volBars).getLast (by decide)).signal,
   ((compute_indicators volBars).getLast (by decide)).rollingVar⟩

/-- An exception environment on the 25th in which every fetch succeeds
with the volatile `volBars`, order placement never raises, but the
metadata request for the single symbol `"ZW"` raises an uncaught
exception; every other symbol's metadata resolves normally. -/
def envC5x : EnvExc :=
  ⟨fun _ => some volBars,
   fun s => if s.symbol = "ZW" then none else some [⟨0, "202406"⟩],
   fun _ => false,
   25⟩

/-- An exception environment in which the fetch for the single symbol
`"ZW"` fails, every other fetch succeeds with `goodBars`, no metadata
request or order placement ever raises, and today is the 25th. -/
def envIsoX : EnvExc :=
  ⟨fun s => if s.symbol = "ZW" then none else some goodBars,
   fun _ => some [⟨0, "202406"⟩],
   fun _ => false,
   25⟩

/-! ## Contract resolution: helper lemmas -/

lemma contractLE_refl (a : Contract) : contractLE a a := le_refl _

lemma contractLE_trans {a b c : Contract} (h1 : contractLE a b) (h2 : contractLE b c) :
    contractLE a c := le_trans h1 h2

lemma contractLE_total (a b : Contract) : contractLE a b ∨ contractLE b a := le_total _ _

lemma contractLE_of_not_le {a b : Contract} (h : ¬ contractLE a b) : contractLE b a :=
  (contractLE_total a b).resolve_left h

lemma ne_of_not_contractLE {a b : Contract} (h : ¬ contractLE a b) :
    a.lastTradeDateOrContractMonth ≠ b.lastTradeDateOrContractMonth :=
  fun he => h (le_of_eq he)

lemma head?_orderedInsert_contractLE (x : Contract) (l : List Contract) :
    (l.orderedInsert contractLE x).head? =
      some (match l.head? with
            | none => x
            | some y => if contractLE x y then x else y) := by
  cases l with
  | nil => rfl
  | cons y t =>
    by_cases h : contractLE x y
    · simp [List.orderedInsert, h]
    · simp [List.orderedInsert, h]

/-- The head of the stable insertion sort is the first minimal element. -/
lemma head?_insertionSort_contractLE (l : List Contract) :
    (l.insertionSort contractLE).head? = firstMinC l := by
  induction l with
  | nil => rfl
  | cons x t ih =>
    show (List.orderedInsert contractLE x (t.insertionSort contractLE)).head? = _
    rw [head?_orderedInsert_contractLE, ih]
    cases h : firstMinC t with
    | none => simp [firstMinC, h]
    | some m =>
      simp only [firstMinC, h]
      split <;> rfl

lemma get_front_eq_firstMinC (details : List Contract) :
    get_front_month_contract details = firstMinC (details.filter tokenOK) :=
  head?_insertionSort_contractLE _

lemma firstMinC_eq_none {l : List Contract} : firstMinC l = none ↔ l = [] := by
  cases l with
  | nil => simp [firstMinC]
  | cons x t =>
    cases h : firstMinC t with
    | none => simp [firstMinC, h]
    | some m =>
      simp only [firstMinC, h]
      split <;> simp

lemma firstMinC_mem : ∀ {l : List Contract} {c : Contract}, firstMinC l = some c → c ∈ l := by
  intro l
  induction l with
  | nil => intro c h; cases h
  | cons x t ih =>
    intro c h
    cases ht : firstMinC t with
    | none =>
      simp only [firstMinC, ht] at h
      cases h
      exact List.mem_cons_self x t
    | some m =>
      simp only [firstMinC, ht] at h
      by_cases hc : contractLE x m
      · rw [if_pos hc] at h; cases h; exact List.mem_cons_self x t
      · rw [if_neg hc] at h; cases h; exact List.mem_cons_of_mem x (ih ht)

lemma firstMinC_min : ∀ {l : List Contract} {c : Contract}, firstMinC l = some c →
    ∀ d ∈ l, contractLE c d := by
  intro l
  induction l with
  | nil => intro c h; cases h
  | cons x t ih =>
    intro c h d hd
    cases ht : firstMinC t with
    | none =>
      have h0 : t = [] := firstMinC_eq_none.mp ht
      subst h0
      simp only [firstMinC] at h
      cases h
      rcases List.mem_cons.mp hd with rfl | hd'
      · exact contractLE_refl _
      · cases hd'
    | some m =>
      simp only [firstMinC, ht] at h
      by_cases hc : contractLE x m
      · rw [if_pos hc] at h
        cases h
        rcases List.mem_cons.mp hd with rfl | hd'
        · exact contractLE_refl _
        · exact contractLE_trans hc (ih ht d hd')
      · rw [if_neg hc] at h
        cases h
        rcases List.mem_cons.mp hd with rfl | hd'
        · exact contractLE_of_not_le hc
        · exact ih ht d hd'

/-- The first-minimal element is the first element carrying its token:
the tie-break among duplicate earliest expiry tokens is "first in
filtered order". -/
lemma firstMinC_find : ∀ {l : List Contract} {c : Contract}, firstMinC l = some c →
    l.find? (fun d => d.lastTradeDateOrContractMonth == c.lastTradeDateOrContractMonth)
      = some c := by
  intro l
  induction l with
  | nil => intro c h; cases h
  | cons x t ih =>
    intro c h
    cases ht : firstMinC t with
    | none =>
      simp only [firstMinC, ht] at h
      cases h
      exact List.find?_cons_of_pos _ (by simp)
    | some m =>
      simp only [firstMinC, ht] at h
      by_cases hc : contractLE x m
      · rw [if_pos hc] at h
        cases h
        exact List.find?_cons_of_pos _ (by simp)
      · rw [if_neg hc] at h
        cases h
        rw [List.find?_cons_of_neg _ ?_]
        · exact ih ht
        · simp only [beq_iff_eq]
          exact ne_of_not_contractLE hc

/-- The concrete resolution of the spec's worked example. -/
lemma front_concrete :
    get_front_month_contract [⟨0, "202403"⟩, ⟨1, "202406"⟩, ⟨2, "202312"⟩]
      = some ⟨2, "202312"⟩ := by
  have h1 : ¬ contractLE ⟨0, "202403"⟩ ⟨2, "202312"⟩ :=
    fun h => absurd (String.le_iff_toList_le.mp h) (by decide)
  have h2 : ¬ contractLE ⟨1, "202406"⟩ ⟨2, "202312"⟩ :=
    fun h => absurd (String.le_iff_toList_le.mp h) (by decide)
  rw [get_front_eq_firstMinC]
  have hf : ([⟨0, "202403"⟩, ⟨1, "202406"⟩, ⟨2, "202312"⟩] : List Contract).filter tokenOK
      = [⟨0, "202403"⟩, ⟨1, "202406"⟩, ⟨2, "202312"⟩] := by decide
  rw [hf]
  simp [firstMinC, h1, h2]

/-! ## Claims C2 and C8 -/

/-- C2: front-month resolution filters to contracts whose expiry token
is present (truthy) and at least 6 characters long, returns `None`
exactly when no candidate survives the filter, and otherwise returns a
surviving candidate whose expiry token is lexicographically smallest,
namely the first candidate carrying that token in filtered input order
(stable tie-break); in particular on tokens
`["202403", "202406", "202312"]` it returns the contract tagged
`"202312"`. -/
theorem front_month_resolution_C2 (contracts : List Contract) (c : Contract)
    (hc : get_front_month_contract contracts = some c) :
    c ∈ contracts.filter tokenOK
    ∧ (∀ d ∈ contracts.filter tokenOK,
        c.lastTradeDateOrContractMonth ≤ d.lastTradeDateOrContractMonth)
    ∧ (contracts.filter tokenOK).find?
        (fun d => d.lastTradeDateOrContractMonth == c.lastTradeDateOrContractMonth)
        = some c
    ∧ (∀ l : List Contract, get_front_month_contract l = none ↔ l.filter tokenOK = [])
    ∧ (∀ d : Contract, tokenOK d = true ↔
        (d.lastTradeDateOrContractMonth ≠ "" ∧ 6 ≤ d.lastTradeDateOrContractMonth.length))
    ∧ get_front_month_contract [⟨0, "202403"⟩, ⟨1, "202406"⟩, ⟨2, "202312"⟩]
        = some ⟨2, "202312"⟩ := by
  have hfm : firstMinC (contracts.filter tokenOK) = some c := by
    rw [← get_front_eq_firstMinC]; exact hc
  refine ⟨firstMinC_mem hfm, ?_, firstMinC_find hfm, ?_, ?_, front_concrete⟩
  · intro d hd
    exact firstMinC_min hfm d hd
  · intro l
    rw [get_front_eq_firstMinC]
    exact firstMinC_eq_none
  · intro d
    simp [tokenOK]

/-- Witness for C2 at the spec's worked example. -/
theorem front_month_resolution_C2_witness :
    (⟨2, "202312"⟩ : Contract) ∈
      ([⟨0, "202403"⟩, ⟨1, "202406"⟩, ⟨2, "202312"⟩] : List Contract).filter tokenOK :=
  (front_month_resolution_C2 _ _ front_concrete).1

/-- C8 (amended): resolution only guarantees the source's own filter —
the returned contract's token is truthy and at least 6 characters — and
it preserves spec-level well-formedness only when every input token
already has it.  (The claim's stronger invariant is refuted by
`resolution_invariant_C8_counterexample`.) -/
theorem resolution_invariant_C8 (contracts : List Contract) (c : Contract)
    (hc : get_front_month_contract contracts = some c) :
    tokenOK c = true
    ∧ ((∀ d ∈ contracts, specTokenWellFormed d.lastTradeDateOrContractMonth = true) →
        specTokenWellFormed c.lastTradeDateOrContractMonth = true) := by
  have hfm : firstMinC (contracts.filter tokenOK) = some c := by
    rw [← get_front_eq_firstMinC]; exact hc
  have hmem := firstMinC_mem hfm
  exact ⟨List.of_mem_filter hmem, fun hall => hall c (List.mem_of_mem_filter hmem)⟩

/-- Witness for C8 (amended) at a single well-formed contract. -/
theorem resolution_invariant_C8_witness :
    tokenOK ⟨0, "202406"⟩ = true :=
  (resolution_invariant_C8 [⟨0, "202406"⟩] _ (by decide)).1

/-- Counterexample to C8 as stated: the token `"banana"` is not
resolvable to any calendar month yet its contract is returned by
resolution, and the well-formed token `"190001"` — decades in the past,
hence expired at any plausible resolution time — is returned as well:
the source never parses the token beyond its length and never compares
it with the current date. -/
theorem resolution_invariant_C8_counterexample :
    get_front_month_contract [⟨0, "banana"⟩] = some ⟨0, "banana"⟩
    ∧ specTokenWellFormed ("banana") = false
    ∧ get_front_month_contract [⟨0, "190001"⟩] = some ⟨0, "190001"⟩
    ∧ specTokenWellFormed ("190001") = true := by
  decide

/-! ## Indicator engine: helper lemmas -/

lemma mkRow_idx (volW maW : ℕ) (closes : List ℚ) (i : ℕ) :
    (mkRow volW maW closes i).idx = i := rfl

lemma mkRow_close (volW maW : ℕ) (closes : List ℚ) (i : ℕ) :
    (mkRow volW maW closes i).close = closes.getD i 0 := rfl

lemma mkRow_ma (volW maW : ℕ) (closes : List ℚ) (i : ℕ) :
    (mkRow volW maW closes i).ma
      = npMean ((List.range' (i + 1 - maW) maW).map fun j => closes.getD j 0) := rfl

lemma mkRow_rollingVar (volW maW : ℕ) (closes : List ℚ) (i : ℕ) :
    (mkRow volW maW closes i).rollingVar
      = sampleVar ((List.range' (i + 1 - volW) volW).map (retAt closes)) := rfl

lemma mkRow_signal (volW maW : ℕ) (closes : List ℚ) (i : ℕ) :
    (mkRow volW maW closes i).signal
      = if npMean ((List.range' (i + 1 - maW) maW).map fun j => closes.getD j 0) <
            closes.getD i 0 then 1 else -1 := rfl

lemma mem_computeIndicatorsWith {volW maW : ℕ} {closes : List ℚ} {r : IndicatorRow} :
    r ∈ computeIndicatorsWith volW maW closes ↔
      ∃ i, startIdx volW maW ≤ i ∧ i < closes.length ∧ r = mkRow volW maW closes i := by
  unfold computeIndicatorsWith
  simp only [List.mem_map, List.mem_filter, List.mem_range, decide_eq_true_eq]
  constructor
  · rintro ⟨i, ⟨hi, hs⟩, rfl⟩
    exact ⟨i, hs, hi, rfl⟩
  · rintro ⟨i, hs, hi, rfl⟩
    exact ⟨i, ⟨hi, hs⟩, rfl⟩

lemma sampleVar_eq_zero {l : List ℚ} (h : ∀ x ∈ l, x = 0) : sampleVar l = 0 := by
  have hsum : l.sum = 0 := List.sum_eq_zero h
  have hmean : npMean l = 0 := by rw [npMean, hsum, zero_div]
  have hsq : (l.map fun x => (x - npMean l) * (x - npMean l)).sum = 0 := by
    apply List.sum_eq_zero
    intro y hy
    rcases List.mem_map.mp hy with ⟨x, hx, rfl⟩
    rw [h x hx, hmean, sub_zero, mul_zero]
  rw [sampleVar, hsq, zero_div]

lemma getD_eq_const {closes : List ℚ} {c : ℚ} (hconst : ∀ x ∈ closes, x = c)
    {j : ℕ} (hj : j < closes.length) : closes.getD j 0 = c := by
  rw [List.getD_eq_getElem closes 0 hj]
  exact hconst _ (List.getElem_mem hj)

/-! ## Claims C3, C6, C7, C9 -/

/-- C3: every derived indicator row carries signal `+1` when the close
strictly exceeds the moving average at that index and `-1` otherwise —
there is no third value, and exact equality of close and moving average
yields `-1`; the row's `close` and `ma` fields really are the series
close at the row's index and the trailing `maW`-close mean ending
there. -/
theorem trend_signal_C3 (volW maW : ℕ) (closes : List ℚ) (r : IndicatorRow)
    (hr : r ∈ computeIndicatorsWith volW maW closes) :
    (r.signal = 1 ∨ r.signal = -1)
    ∧ (r.signal = 1 ↔ r.ma < r.close)
    ∧ (r.close = r.ma → r.signal = -1)
    ∧ r.close = closes.getD r.idx 0
    ∧ r.ma = npMean ((List.range' (r.idx + 1 - maW) maW).map fun j => closes.getD j 0) := by
  rcases mem_computeIndicatorsWith.mp hr with ⟨i, _hs, _hi, rfl⟩
  rw [mkRow_signal, mkRow_ma, mkRow_close, mkRow_idx]
  by_cases hlt : npMean ((List.range' (i + 1 - maW) maW).map fun j => closes.getD j 0) <
      closes.getD i 0
  · rw [if_pos hlt]
    refine ⟨Or.inl rfl, iff_of_true rfl hlt, ?_, rfl, rfl⟩
    intro he
    exact absurd hlt (he ▸ lt_irrefl _)
  · rw [if_neg hlt]
    refine ⟨Or.inr rfl, iff_of_false (by decide) hlt, fun _ => rfl, rfl, rfl⟩

/-- Witness for C3 on the three-bar series `[1, 2, 4]` with windows 2. -/
theorem trend_signal_C3_witness :
    ((computeIndicatorsWith 2 2 [1, 2, 4]).head (by decide)).signal = 1
    ∨ ((computeIndicatorsWith 2 2 [1, 2, 4]).head (by decide)).signal = -1 :=
  (trend_signal_C3 2 2 [1, 2, 4] _ (List.head_mem (by decide))).1

/-- C6 (amended): every emitted derived row sits at an index of the
input series with at least `max volW (maW - 1)` prior observations
(`startIdx`), i.e. at least `maW` observations counting the row itself
when `maW - 1 ≥ volW`; rows with less trailing history are excluded
entirely.  (The claim's bound `max volW maW` prior observations is off
by one on the moving-average side; see
`derived_rows_history_C6_counterexample`.) -/
theorem derived_rows_history_C6 (volW maW : ℕ) (closes : List ℚ) (r : IndicatorRow)
    (hr : r ∈ computeIndicatorsWith volW maW closes) :
    startIdx volW maW ≤ r.idx ∧ r.idx < closes.length := by
  rcases mem_computeIndicatorsWith.mp hr with ⟨i, hs, hi, rfl⟩
  exact ⟨hs, hi⟩

/-- Witness for C6 (amended) on the three-bar series with windows 2. -/
theorem derived_rows_history_C6_witness :
    startIdx 2 2 ≤ ((computeIndicatorsWith 2 2 [1, 2, 3]).head (by decide)).idx
    ∧ ((computeIndicatorsWith 2 2 [1, 2, 3]).head (by decide)).idx
        < ([1, 2, 3] : List ℚ).length :=
  derived_rows_history_C6 2 2 [1, 2, 3] _ (List.head_mem (by decide))

/-- Counterexample to C6 as stated: on a 200-observation series the
derived output contains a row at index 199, which has only 199 prior
observations — fewer than `max VOL_WINDOW MA_WINDOW = 200`.  (The
200-day moving average at index 199 uses the row itself plus 199 prior
closes, so `dropna` keeps it.) -/
theorem derived_rows_history_C6_counterexample :
    (computeIndicatorsWith VOL_WINDOW MA_WINDOW (List.replicate 200 (1 : ℚ))).map
        (fun r => r.idx) = [199]
    ∧ 199 < max VOL_WINDOW MA_WINDOW := by
  constructor
  · decide
  · decide

/-- C7 (amended): `compute_indicators` is a total function that never
raises: it ignores the dates entirely (two series with the same closes
give identical output, so duplicate or non-monotonic dates are not
rejected), and it returns the empty list exactly when the series is
shorter than `MA_WINDOW` observations — in particular the empty-input
case yields the same empty output as a valid-but-short series, so no
distinct hard-failure condition exists.  (The claimed hard failure on
empty/duplicate-date input is refuted by
`indicator_totality_C7_counterexample`.) -/
theorem indicator_totality_C7 :
    (∀ bars bars' : List Bar, bars.map Bar.close = bars'.map Bar.close →
        compute_indicators bars = compute_indicators bars')
    ∧ (∀ bars : List Bar, compute_indicators bars = [] ↔ bars.length < MA_WINDOW) := by
  constructor
  · intro bars bars' h
    unfold compute_indicators
    rw [h]
  · intro bars
    have hMA : MA_WINDOW = 200 := rfl
    have hSI : startIdx VOL_WINDOW MA_WINDOW = 199 := rfl
    unfold compute_indicators computeIndicatorsWith
    rw [List.map_eq_nil_iff, List.filter_eq_nil_iff]
    constructor
    · intro h
      by_contra hn
      push_neg at hn
      have h199 : (199 : ℕ) ∈ List.range (bars.map Bar.close).length := by
        rw [List.mem_range, List.length_map]
        omega
      have := h 199 h199
      rw [decide_eq_true_eq] at this
      omega
    · intro h i hi
      rw [List.mem_range, List.length_map] at hi
      rw [decide_eq_true_eq]
      omega

/-- Witness for C7 (amended): two one-bar series with different dates
but the same close produce identical output, and the one-bar series
yields the empty (non-error) result characterised by the length bound. -/
theorem indicator_totality_C7_witness :
    compute_indicators [⟨3, 5⟩] = compute_indicators [⟨9, 5⟩]
    ∧ (compute_indicators [⟨0, 1⟩] = [] ↔ ([⟨0, 1⟩] : List Bar).length < MA_WINDOW) :=
  ⟨indicator_totality_C7.1 _ _ (by decide), indicator_totality_C7.2 _⟩

/-- Counterexample to C7 as stated: the empty series produces the empty
list — the very same value a valid one-bar series produces, not a
distinct hard failure — and a 200-bar series whose dates are all equal
(duplicate dates) is processed normally into a nonempty derived
sequence instead of being rejected. -/
theorem indicator_totality_C7_counterexample :
    compute_indicators ([] : List Bar) = []
    ∧ compute_indicators [⟨0, 1⟩] = []
    ∧ compute_indicators (List.replicate 200 ⟨7, 1⟩) ≠ [] := by
  refine ⟨rfl, by decide, by decide⟩

/-- C9: on a price series with constant nonzero close, every derived
row's rolling realized volatility — the sample standard deviation of
the one-period returns over the trailing window — is exactly 0, for any
volatility window of size at least 2 (and any moving-average window). -/
theorem constant_series_vol_C9 (volW maW : ℕ) (c : ℚ) (closes : List ℚ)
    (r : IndicatorRow) (hc : c ≠ 0) (_hw : 2 ≤ volW)
    (hconst : ∀ x ∈ closes, x = c)
    (hr : r ∈ computeIndicatorsWith volW maW closes) :
    rolling_std r = 0 := by
  rcases mem_computeIndicatorsWith.mp hr with ⟨i, hs, hi, rfl⟩
  have hvW : volW ≤ i := le_trans (le_max_left _ _) hs
  have hvar : (mkRow volW maW closes i).rollingVar = 0 := by
    rw [mkRow_rollingVar]
    apply sampleVar_eq_zero
    intro y hy
    rcases List.mem_map.mp hy with ⟨j, hj, rfl⟩
    rw [List.mem_range'_1] at hj
    rcases hj with ⟨hj1, hj2⟩
    have hjlen : j < closes.length := by omega
    have hjm1len : j - 1 < closes.length := by omega
    rw [retAt, getD_eq_const hconst hjlen, getD_eq_const hconst hjm1len,
        div_self hc, sub_self]
  rw [rolling_std, hvar]
  rw [Rat.cast_zero, Real.sqrt_zero]

/-- Witness for C9 on the constant series `[1, 1, 1]` with windows 2. -/
theorem constant_series_vol_C9_witness :
    rolling_std ((computeIndicatorsWith 2 2 [1, 1, 1]).head (by decide)) = 0 :=
  constant_series_vol_C9 2 2 1 [1, 1, 1] _ (by decide) (by decide) (by decide)
    (List.head_mem (by decide))

/-! ## Execution cycle: helper lemmas -/

lemma run_eq_noData {env : Env} {u : List SymbolInfo} (h : buildMap env u = []) :
    run_mlm_strategy env u = ⟨CycleStatus.noData, none, false, [], 1⟩ := by
  unfold run_mlm_strategy
  rw [if_pos h]

lemma run_eq_submission {env : Env} {u : List SymbolInfo} (h : buildMap env u ≠ [])
    (hg : bothGates env (buildMap env u)) :
    run_mlm_strategy env u =
      ⟨CycleStatus.completed, some (avgVolReal (buildMap env u)), true,
       submitOrders env u (buildMap env u), 1⟩ := by
  unfold run_mlm_strategy
  rw [if_neg h, if_pos hg]

lemma run_eq_noTrades {env : Env} {u : List SymbolInfo} (h : buildMap env u ≠ [])
    (hg : ¬ bothGates env (buildMap env u)) :
    run_mlm_strategy env u =
      ⟨CycleStatus.completed, some (avgVolReal (buildMap env u)), false, [], 1⟩ := by
  unfold run_mlm_strategy
  rw [if_neg h, if_neg hg]

lemma snapEntry_fst {env : Env} {info : SymbolInfo} {p : String × Snapshot}
    (h : snapEntry env info = some p) : p.1 = info.symbol := by
  unfold snapEntry at h
  cases hg : get_continuous_data env info with
  | none =>
    simp only [hg] at h
    cases h
  | some bars =>
    simp only [hg] at h
    by_cases hr : compute_indicators bars = []
    · rw [dif_pos hr] at h
      cases h
    · rw [dif_neg hr] at h
      cases h
      rfl

lemma snapEntry_isSome (env : Env) (info : SymbolInfo) :
    (snapEntry env info).isSome = producedSnapshot env info := by
  unfold snapEntry producedSnapshot
  cases hg : get_continuous_data env info with
  | none => simp [hg]
  | some bars =>
    by_cases hr : compute_indicators bars = []
    · simp [hg, hr]
    · simp [hg, hr]

/-- `symbol_data_map` holds exactly the universe entries that produced a
snapshot this cycle, keyed by their symbols, in universe order. -/
lemma buildMap_fst (env : Env) (u : List SymbolInfo) :
    (buildMap env u).map Prod.fst
      = (u.filter (producedSnapshot env)).map SymbolInfo.symbol := by
  induction u with
  | nil => rfl
  | cons x t ih =>
    unfold buildMap
    unfold buildMap at ih
    rw [List.filterMap_cons, List.filter_cons]
    cases h : snapEntry env x with
    | none =>
      have hps : producedSnapshot env x = false := by
        rw [← snapEntry_isSome, h]
        rfl
      rw [hps]
      simpa using ih
    | some p =>
      have hps : producedSnapshot env x = true := by
        rw [← snapEntry_isSome, h]
        rfl
      rw [hps]
      simp only [if_pos rfl, List.map_cons, ite_true]
      rw [snapEntry_fst h, ih]

/-! ## Exception-aware cycle: helper lemmas -/

/-- On an environment where no metadata call and no order placement
raises, the exception-aware submission loop places exactly the orders
of the non-exceptional model. -/
lemma submitLoopExc_ok {env : EnvExc} {univ : List SymbolInfo}
    (hall : ∀ i : SymbolInfo, env.contractDetailsExc i ≠ none)
    (hallp : ∀ o : OrderIntent, env.placeOrderRaises o = false) :
    ∀ m : List (String × Snapshot),
      submitLoopExc env univ m = Except.ok (submitOrders (toEnv env) univ m) := by
  intro m
  induction m with
  | nil => rfl
  | cons p rest ih =>
    cases hfind : univ.find? fun x => x.symbol == p.1 with
    | none =>
      simp only [submitLoopExc, submitOrders, List.filterMap_cons, hfind]
      exact ih
    | some info =>
      obtain ⟨ds, hds⟩ : ∃ ds, env.contractDetailsExc info = some ds := by
        cases hcd : env.contractDetailsExc info with
        | none => exact absurd hcd (hall info)
        | some ds => exact ⟨ds, rfl⟩
      have hcd2 : (toEnv env).contractDetails info = ds := by
        show (env.contractDetailsExc info).getD [] = ds
        rw [hds]
        rfl
      cases hfr : get_front_month_contract ds with
      | none =>
        simp only [submitLoopExc, submitOrders, List.filterMap_cons, hfind, hds, hcd2, hfr]
        exact ih
      | some front =>
        simp only [submitLoopExc, submitOrders, List.filterMap_cons, hfind, hds, hcd2,
          hfr, hallp, ih]
        rw [if_neg (fun h => Bool.noConfusion h)]

/-- On an environment where nothing raises, the exception-aware cycle
finishes with exactly the result of the non-exceptional model. -/
lemma run_exc_agrees (env : EnvExc) (u : List SymbolInfo)
    (hall : ∀ i : SymbolInfo, env.contractDetailsExc i ≠ none)
    (hallp : ∀ o : OrderIntent, env.placeOrderRaises o = false) :
    run_mlm_strategy_exc env u = CycleOutcome.finished (run_mlm_strategy (toEnv env) u) := by
  by_cases h : buildMap (toEnv env) u = []
  · rw [run_eq_noData h]
    unfold run_mlm_strategy_exc
    rw [if_pos h]
  · by_cases hg : env.todayDay = 25 ∧ (VOL_THRESHOLD : ℝ) < avgVolReal (buildMap (toEnv env) u)
    · rw [run_eq_submission h (show bothGates (toEnv env) (buildMap (toEnv env) u) from hg)]
      unfold run_mlm_strategy_exc
      rw [if_neg h, if_pos hg, submitLoopExc_ok hall hallp]
    · rw [run_eq_noTrades h (show ¬ bothGates (toEnv env) (buildMap (toEnv env) u) from hg)]
      unfold run_mlm_strategy_exc
      rw [if_neg h, if_neg hg]

lemma run_exc_submission {env : EnvExc} {u : List SymbolInfo}
    (h : buildMap (toEnv env) u ≠ [])
    (hg : env.todayDay = 25 ∧ (VOL_THRESHOLD : ℝ) < avgVolReal (buildMap (toEnv env) u))
    (hall : ∀ i : SymbolInfo, env.contractDetailsExc i ≠ none)
    (hallp : ∀ o : OrderIntent, env.placeOrderRaises o = false) :
    run_mlm_strategy_exc env u
      = CycleOutcome.finished
          ⟨CycleStatus.completed, some (avgVolReal (buildMap (toEnv env) u)), true,
           submitOrders (toEnv env) u (buildMap (toEnv env) u), 1⟩ := by
  unfold run_mlm_strategy_exc
  rw [if_neg h, if_pos hg, submitLoopExc_ok hall hallp]

/-! ## Evaluation of the aborting scenario -/

lemma getLast_eq_of_eq_singleton {l : List IndicatorRow} {x : IndicatorRow}
    (he : l = [x]) (h : l ≠ []) : l.getLast h = x := by
  subst he
  rfl

lemma volCloses_eq : volBars.map Bar.close = volCloses := by decide

/-- `volBars` is long enough for exactly one derived row, at index 199. -/
lemma compute_volBars :
    compute_indicators volBars = [mkRow VOL_WINDOW MA_WINDOW volCloses 199] := by
  unfold compute_indicators computeIndicatorsWith
  rw [volCloses_eq]
  rw [(by decide : volCloses.length = 200)]
  rw [(by decide :
    (List.range 200).filter (fun i => startIdx VOL_WINDOW MA_WINDOW ≤ i) = [199])]
  rfl

/-- The trailing 20-return window of `volBars` at index 199: nineteen
zero returns followed by the single `2/1 - 1 = 1` return. -/
lemma volWindow_eval :
    (List.range' (199 + 1 - VOL_WINDOW) VOL_WINDOW).map (retAt volCloses)
      = List.replicate 19 0 ++ [1] := by
  have hget : ∀ k, k < 199 → volCloses.getD k 0 = 1 := by decide
  have hget199 : volCloses.getD 199 0 = 2 := by decide
  rw [(by decide :
    List.range' (199 + 1 - VOL_WINDOW) VOL_WINDOW = List.range' 180 19 ++ [199])]
  rw [List.map_append]
  congr 1
  · rw [List.eq_replicate_iff]
    constructor
    · simp
    · intro b hb
      rcases List.mem_map.mp hb with ⟨j, hj, rfl⟩
      rw [List.mem_range'_1] at hj
      unfold retAt
      rw [hget j (by omega), hget (j - 1) (by omega)]
      norm_num
  · simp only [List.map_cons, List.map_nil]
    unfold retAt
    rw [(by norm_num : (199 : ℕ) - 1 = 198), hget199, hget 198 (by norm_num)]
    norm_num

/-- Sample variance of nineteen zeros and a single one. -/
lemma sampleVar_19zeros : sampleVar (List.replicate 19 (0 : ℚ) ++ [1]) = 1 / 20 := by
  have hm : npMean (List.replicate 19 (0 : ℚ) ++ [1]) = 1 / 20 := by
    unfold npMean
    rw [List.sum_append, List.sum_replicate]
    simp only [List.length_append, List.length_replicate, List.length_cons,
      List.length_nil, List.sum_cons, List.sum_nil, smul_eq_mul]
    norm_num
  unfold sampleVar
  rw [hm, List.map_append, List.map_replicate, List.sum_append, List.sum_replicate]
  simp only [List.length_append, List.length_replicate, List.length_cons,
    List.length_nil, List.map_cons, List.map_nil, List.sum_cons, List.sum_nil,
    smul_eq_mul]
  norm_num

lemma volSnap_volVar : volSnap.volVar = 1 / 20 := by
  unfold volSnap
  rw [getLast_eq_of_eq_singleton compute_volBars]
  rw [mkRow_rollingVar]
  rw [volWindow_eval, sampleVar_19zeros]

lemma snapEntry_envC5x (s : SymbolInfo) :
    snapEntry (toEnv envC5x) s = some (s.symbol, volSnap) := by
  have hb : volBars ≠ [] := by decide
  have hne : compute_indicators volBars ≠ [] := by decide
  have hf : (toEnv envC5x).fetch s = some volBars := rfl
  unfold snapEntry get_continuous_data
  simp only [hf, if_neg hb, dif_neg hne]
  rfl

lemma buildMap_envC5x :
    buildMap (toEnv envC5x) uni4
      = [("ZC", volSnap), ("ZW", volSnap), ("ZS", volSnap), ("ZM", volSnap)] := by
  unfold buildMap uni4
  simp only [List.filterMap_cons, List.filterMap_nil, snapEntry_envC5x]

/-- The average volatility of the aborting scenario. -/
lemma avg_envC5x :
    avgVolReal (buildMap (toEnv envC5x) uni4) = Real.sqrt ((1 / 20 : ℚ) : ℝ) := by
  rw [buildMap_envC5x]
  unfold avgVolReal npMean
  simp only [List.map_cons, List.map_nil, List.sum_cons, List.sum_nil,
    List.length_cons, List.length_nil]
  rw [volSnap_volVar]
  push_cast
  ring_nf

/-- `sqrt(1/20) ≈ 0.22` strictly exceeds the `0.015` threshold, so the
volatility gate of the aborting scenario is open. -/
lemma gate_envC5x :
    (VOL_THRESHOLD : ℝ) < avgVolReal (buildMap (toEnv envC5x) uni4) := by
  rw [avg_envC5x]
  rw [(by norm_num : ((1 / 20 : ℚ) : ℝ) = 1 / 20)]
  rw [(by norm_num [VOL_THRESHOLD] : ((VOL_THRESHOLD : ℚ) : ℝ) = 15 / 1000)]
  rw [Real.lt_sqrt (by norm_num)]
  norm_num

/-- The submission loop of the aborting scenario: `"ZC"`'s order is
placed, then `"ZW"`'s uncaught metadata exception escapes, so `"ZS"`
and `"ZM"` are never reached. -/
lemma submitLoop_envC5x :
    submitLoopExc envC5x uni4
        [("ZC", volSnap), ("ZW", volSnap), ("ZS", volSnap), ("ZM", volSnap)]
      = Except.error
          [⟨"ZC", ⟨0, "202406"⟩, (if volSnap.signal = (1 : ℤ) then "BUY" else "SELL"),
            CONTRACT_SIZE⟩] := by
  have hfindZC : uni4.find? (fun x => x.symbol == "ZC")
      = some ⟨"ZC", "CBOT", "USD", "Grains"⟩ := by decide
  have hfindZW : uni4.find? (fun x => x.symbol == "ZW")
      = some ⟨"ZW", "CBOT", "USD", "Grains"⟩ := by decide
  have hdetZC : envC5x.contractDetailsExc ⟨"ZC", "CBOT", "USD", "Grains"⟩
      = some [⟨0, "202406"⟩] := rfl
  have hdetZW : envC5x.contractDetailsExc ⟨"ZW", "CBOT", "USD", "Grains"⟩ = none := rfl
  have hfront : get_front_month_contract [⟨0, "202406"⟩] = some ⟨0, "202406"⟩ := by decide
  simp only [submitLoopExc, hfindZC, hfindZW, hdetZC, hdetZW, hfront]
  rfl

/-- The whole aborting cycle: with the map built, the gate open, the
loop aborts on `"ZW"` and the exception escapes with only `"ZC"`'s
order placed. -/
lemma run_envC5x :
    run_mlm_strategy_exc envC5x uni4
      = CycleOutcome.aborted
          [⟨"ZC", ⟨0, "202406"⟩, (if volSnap.signal = (1 : ℤ) then "BUY" else "SELL"),
            CONTRACT_SIZE⟩] := by
  have hne : buildMap (toEnv envC5x) uni4 ≠ [] := by
    rw [buildMap_envC5x]
    exact List.cons_ne_nil _ _
  have hg : envC5x.todayDay = 25
      ∧ (VOL_THRESHOLD : ℝ) < avgVolReal (buildMap (toEnv envC5x) uni4) :=
    ⟨rfl, gate_envC5x⟩
  unfold run_mlm_strategy_exc
  rw [if_neg hne, if_pos hg, buildMap_envC5x, submitLoop_envC5x]

/-! ## Claims C1, C4, C5, C10 -/

/-- C1: in a cycle that reaches gating (the snapshot map is nonempty),
the submission branch is entered exactly when both gates hold — today's
day of month equals 25 AND the average volatility strictly exceeds the
threshold; under any other combination no order is submitted while the
cycle still completes with its full summary (completed status, average
volatility reported, disconnect performed). -/
theorem gate_conjunction_C1 (env : Env) (u : List SymbolInfo)
    (h : buildMap env u ≠ []) :
    ((env.todayDay = 25 ∧ (VOL_THRESHOLD : ℝ) < avgVolReal (buildMap env u)) →
        run_mlm_strategy env u =
          ⟨CycleStatus.completed, some (avgVolReal (buildMap env u)), true,
           submitOrders env u (buildMap env u), 1⟩)
    ∧ (¬ (env.todayDay = 25 ∧ (VOL_THRESHOLD : ℝ) < avgVolReal (buildMap env u)) →
        run_mlm_strategy env u =
          ⟨CycleStatus.completed, some (avgVolReal (buildMap env u)), false, [], 1⟩) :=
  ⟨fun hg => run_eq_submission h hg, fun hg => run_eq_noTrades h hg⟩

/-- Witness for C1: on the 24th (not a rebalance day) the cycle
completes with no orders and a full summary. -/
theorem gate_conjunction_C1_witness :
    run_mlm_strategy envA uni4 =
      ⟨CycleStatus.completed, some (avgVolReal (buildMap envA uni4)), false, [], 1⟩ :=
  (gate_conjunction_C1 envA uni4 (by decide)).2 (fun hg => absurd hg.1 (by decide))

/-- C4: basket volatility is the unweighted arithmetic mean of the
latest per-instrument volatilities over exactly the universe entries
that produced a snapshot this cycle (instruments without data appear in
neither numerator nor denominator); the sample aggregation over
`{A: 0.01, B: 0.02, C: 0.03}` yields `0.02`; and the cycle ends in the
distinct no-data state exactly when no instrument produced a snapshot —
distinguishable from a completed below-threshold cycle. -/
theorem volatility_aggregation_C4 (env : Env) (u : List SymbolInfo) :
    ((run_mlm_strategy env u).status = CycleStatus.noData ↔ buildMap env u = [])
    ∧ (buildMap env u ≠ [] →
        (run_mlm_strategy env u).status = CycleStatus.completed
        ∧ (run_mlm_strategy env u).avgVol
            = some (npMean ((buildMap env u).map fun p => Real.sqrt (p.2.volVar : ℝ))))
    ∧ (buildMap env u).map Prod.fst
        = (u.filter (producedSnapshot env)).map SymbolInfo.symbol
    ∧ npMean [(1 : ℚ)/100, 2/100, 3/100] = 2/100 := by
  refine ⟨?_, ?_, buildMap_fst env u, ?_⟩
  · by_cases h : buildMap env u = []
    · rw [run_eq_noData h]
      exact iff_of_true rfl h
    · by_cases hg : bothGates env (buildMap env u)
      · rw [run_eq_submission h hg]
        exact iff_of_false (fun hh => CycleStatus.noConfusion hh) h
      · rw [run_eq_noTrades h hg]
        exact iff_of_false (fun hh => CycleStatus.noConfusion hh) h
  · intro h
    by_cases hg : bothGates env (buildMap env u)
    · rw [run_eq_submission h hg]
      exact ⟨rfl, rfl⟩
    · rw [run_eq_noTrades h hg]
      exact ⟨rfl, rfl⟩
  · norm_num [npMean, List.sum_cons, List.sum_nil, List.length_cons, List.length_nil]

/-- Witness for C4: in an environment where all four instruments
produce snapshots, the cycle completes and reports the mean of the four
latest volatilities. -/
theorem volatility_aggregation_C4_witness :
    (run_mlm_strategy envA uni4).status = CycleStatus.completed
    ∧ (run_mlm_strategy envA uni4).avgVol
        = some (npMean ((buildMap envA uni4).map fun p => Real.sqrt (p.2.volVar : ℝ))) :=
  (volatility_aggregation_C4 envA uni4).2.1 (by decide)

/-- C5 (amended): per-instrument failures are isolated only along the
handled paths.  An instrument whose fetch succeeds with a nonempty
series and whose derived indicators are nonempty lands in the snapshot
map with its own data, no matter how every other instrument behaves
(so fetch failures, empty results and insufficient history merely
exclude the failing instrument); and — provided no instrument's
uncaught metadata request or order placement raises — when both gates
are open and its front-month contract resolves, its order (direction
from its own latest signal, fixed size) is placed.  An uncaught
exception, by contrast, aborts the whole cycle without a disconnect
(see `isolation_C5_counterexample`, which refutes the claim's "no
per-instrument error aborts the cycle"). -/
theorem isolation_C5 (env : EnvExc) (u : List SymbolInfo) (s : SymbolInfo)
    (bars : List Bar) (hs : s ∈ u) (hf : env.fetch s = some bars)
    (hb : bars ≠ []) (hne : compute_indicators bars ≠ []) :
    (s.symbol,
      (⟨compute_indicators bars,
        ((compute_indicators bars).getLast hne).signal,
        ((compute_indicators bars).getLast hne).rollingVar⟩ : Snapshot))
      ∈ buildMap (toEnv env) u
    ∧ (∀ info ds front,
        u.find? (fun x => x.symbol == s.symbol) = some info →
        env.contractDetailsExc info = some ds →
        get_front_month_contract ds = some front →
        (env.todayDay = 25 ∧ (VOL_THRESHOLD : ℝ) < avgVolReal (buildMap (toEnv env) u)) →
        (∀ i : SymbolInfo, env.contractDetailsExc i ≠ none) →
        (∀ o : OrderIntent, env.placeOrderRaises o = false) →
        (⟨s.symbol, front,
          (if ((compute_indicators bars).getLast hne).signal = (1 : ℤ) then "BUY" else "SELL"),
          CONTRACT_SIZE⟩ : OrderIntent) ∈ ordersOf (run_mlm_strategy_exc env u))
    ∧ (∀ os, run_mlm_strategy_exc env u = CycleOutcome.aborted os →
        disconnectsOf (run_mlm_strategy_exc env u) = 0) := by
  have hentry : snapEntry (toEnv env) s
      = some (s.symbol,
          ⟨compute_indicators bars,
           ((compute_indicators bars).getLast hne).signal,
           ((compute_indicators bars).getLast hne).rollingVar⟩) := by
    have hf2 : (toEnv env).fetch s = some bars := hf
    unfold snapEntry get_continuous_data
    simp only [hf2, if_neg hb, dif_neg hne]
  have hmm := List.mem_filterMap.mpr ⟨s, hs, hentry⟩
  refine ⟨hmm, ?_, ?_⟩
  · intro info ds front hfind hds hfront hg hall hallp
    have hnil : buildMap (toEnv env) u ≠ [] := List.ne_nil_of_mem hmm
    rw [run_exc_submission hnil hg hall hallp]
    have hcd2 : (toEnv env).contractDetails info = ds := by
      show (env.contractDetailsExc info).getD [] = ds
      rw [hds]
      rfl
    apply List.mem_filterMap.mpr
    refine ⟨_, hmm, ?_⟩
    simp only [hfind, hcd2, hfront]
  · intro os habort
    rw [habort]
    rfl

/-- Witness for C5 (amended): with the fetch for `"ZW"` failing among
four instruments and nothing raising, the remaining three instruments
`"ZC"`, `"ZS"` and `"ZM"` all still appear in the snapshot map with
their full derived data. -/
theorem isolation_C5_witness :
    ((⟨"ZC", "CBOT", "USD", "Grains"⟩ : SymbolInfo).symbol,
      (⟨compute_indicators goodBars,
        ((compute_indicators goodBars).getLast (by decide)).signal,
        ((compute_indicators goodBars).getLast (by decide)).rollingVar⟩ : Snapshot))
      ∈ buildMap (toEnv envIsoX) uni4
    ∧ ((⟨"ZS", "CBOT", "USD", "Grains"⟩ : SymbolInfo).symbol,
      (⟨compute_indicators goodBars,
        ((compute_indicators goodBars).getLast (by decide)).signal,
        ((compute_indicators goodBars).getLast (by decide)).rollingVar⟩ : Snapshot))
      ∈ buildMap (toEnv envIsoX) uni4
    ∧ ((⟨"ZM", "CBOT", "USD", "Grains"⟩ : SymbolInfo).symbol,
      (⟨compute_indicators goodBars,
        ((compute_indicators goodBars).getLast (by decide)).signal,
        ((compute_indicators goodBars).getLast (by decide)).rollingVar⟩ : Snapshot))
      ∈ buildMap (toEnv envIsoX) uni4 :=
  ⟨(isolation_C5 envIsoX uni4 ⟨"ZC", "CBOT", "USD", "Grains"⟩ goodBars (by decide) rfl
      (by decide) (by decide)).1,
   (isolation_C5 envIsoX uni4 ⟨"ZS", "CBOT", "USD", "Grains"⟩ goodBars (by decide) rfl
      (by decide) (by decide)).1,
   (isolation_C5 envIsoX uni4 ⟨"ZM", "CBOT", "USD", "Grains"⟩ goodBars (by decide) rfl
      (by decide) (by decide)).1⟩

/-- Counterexample to C5 as stated: on the 25th, with all four
instruments fetched successfully and the volatility gate open, the
uncaught `reqContractDetails` exception of the single instrument
`"ZW"` aborts the whole cycle — only `"ZC"`'s order (placed before the
failure) exists, the healthy snapshot-producing instruments `"ZS"` and
`"ZM"` are never processed, and the session is never disconnected. -/
theorem isolation_C5_counterexample :
    isAborted (run_mlm_strategy_exc envC5x uni4) = true
    ∧ (ordersOf (run_mlm_strategy_exc envC5x uni4)).map OrderIntent.symbol = ["ZC"]
    ∧ disconnectsOf (run_mlm_strategy_exc envC5x uni4) = 0
    ∧ producedSnapshot (toEnv envC5x) ⟨"ZS", "CBOT", "USD", "Grains"⟩ = true
    ∧ producedSnapshot (toEnv envC5x) ⟨"ZM", "CBOT", "USD", "Grains"⟩ = true
    ∧ envC5x.contractDetailsExc ⟨"ZW", "CBOT", "USD", "Grains"⟩ = none
    ∧ envC5x.todayDay = 25 := by
  refine ⟨?_, ?_, ?_, by decide, by decide, rfl, rfl⟩
  · rw [run_envC5x]
    rfl
  · rw [run_envC5x]
    rfl
  · rw [run_envC5x]
    rfl

/-- C10: every non-exceptional execution of the cycle disconnects the
session exactly once before returning — on the early no-data
termination path as well as on the normal completion path, with or
without orders. -/
theorem disconnect_once_C10 (env : Env) (u : List SymbolInfo) :
    (run_mlm_strategy env u).disconnects = 1 := by
  by_cases h : buildMap env u = []
  · rw [run_eq_noData h]
  · by_cases hg : bothGates env (buildMap env u)
    · rw [run_eq_submission h hg]
    · rw [run_eq_noTrades h hg]

end MLM
